import Mathlib

/-!
Verification development for the oscilloscope lab viewer.

The repository's measurement engine (`src/core/data_handler.py`), cursor
model (`src/ui/cursor_manager.py`) and plot-manager cursor state machine
(`src/ui/plot_manager.py`) are shallowly embedded below.  Real numbers of
the Python/numpy code are modelled by `ℚ`; numpy array operations
(`np.signbit`, `np.diff`, `np.where`, slicing `[::2]`, `np.mean`,
`np.sum`) are modelled by the list helpers of this file, following the
documented semantics of those numpy operations.
-/

namespace Oscilloscope

/-- `np.signbit x` for a real value: true exactly when `x < 0`
(a value equal to zero counts as non-negative). -/
def signbit (x : ℚ) : Bool := decide (x < 0)

/-- `np.mean` of a list; the empty list gets mean `0`
(in `ℚ`, `0 / 0 = 0`). -/
def listMean (l : List ℚ) : ℚ := l.sum / l.length

/-- Maximum of a list of samples (`Series.max`); `0` on the empty list,
which the engine never hits on loaded data. -/
def listMax : List ℚ → ℚ
  | [] => 0
  | [a] => a
  | a :: b :: r => max a (listMax (b :: r))

/-- Minimum of a list of samples (`Series.min`). -/
def listMin : List ℚ → ℚ
  | [] => 0
  | [a] => a
  | a :: b :: r => min a (listMin (b :: r))

/-- `np.diff`: consecutive differences `l[i+1] - l[i]`. -/
def diffs : List ℚ → List ℚ
  | a :: b :: r => (b - a) :: diffs (b :: r)
  | _ => []

/-- Slicing `[::2]`: every other element, starting at index 0. -/
def stride2 {α : Type} : List α → List α
  | [] => []
  | [a] => [a]
  | a :: _ :: r => a :: stride2 r

/-- Fancy indexing `arr[idxs]`: select the entries at the given indices
(out-of-range indices, which the engine never produces, default to 0). -/
def select (t : List ℚ) (idxs : List ℕ) : List ℚ :=
  idxs.map (fun i => t.getD i 0)

/-- `np.where(np.diff(np.signbit(data - mean)))[0]`: the ordered indices
`i` at which the sign bit of `voltage[i] - mean` differs from that of
`voltage[i+1] - mean`.  (`np.diff` on a boolean array is elementwise
"differs".) -/
def meanCrossings (v : List ℚ) : List ℕ :=
  let m := listMean v
  (List.range (v.length - 1)).filter
    (fun i => signbit (v.getD i 0 - m) != signbit (v.getD (i + 1) 0 - m))

/-- The `rising_edges` list of `DataHandler.get_measurements`: pairs
`(i, time[i+1] - time[i])` for adjacent samples with
`voltage[i] <= v10 and voltage[i+1] >= v90`. -/
def risingEdges (t v : List ℚ) (v10 v90 : ℚ) : List (ℕ × ℚ) :=
  (List.range (v.length - 1)).filterMap (fun i =>
    if v.getD i 0 ≤ v10 ∧ v.getD (i + 1) 0 ≥ v90 then
      some (i, t.getD (i + 1) 0 - t.getD i 0)
    else none)

/-- The `falling_edges` list of `DataHandler.get_measurements`.  The
Python source tests the falling condition in an `elif`, so a pair that
already satisfied the rising condition is never recorded as falling. -/
def fallingEdges (t v : List ℚ) (v10 v90 : ℚ) : List (ℕ × ℚ) :=
  (List.range (v.length - 1)).filterMap (fun i =>
    if ¬(v.getD i 0 ≤ v10 ∧ v.getD (i + 1) 0 ≥ v90)
        ∧ (v.getD i 0 ≥ v90 ∧ v.getD (i + 1) 0 ≤ v10) then
      some (i, t.getD (i + 1) 0 - t.getD i 0)
    else none)

/-- The record returned by `DataHandler.get_measurements`. -/
structure Measurements where
  vpp : ℚ
  vmax : ℚ
  vmin : ℚ
  freq : ℚ
  period : ℚ
  rise_time : ℚ
  fall_time : ℚ
  duty : ℚ
deriving DecidableEq

/-- Body of `DataHandler.get_measurements` (src/core/data_handler.py,
lines 46-97) on one channel's `(time, voltage)` arrays, after the
`None` guards.  Python's single `if len(crossings) > 1 ... else ...`
block assigning `period`, `freq` and later `duty` is split into one
conditional per variable with identical branch values. -/
def getMeasurementsCore (t v : List ℚ) : Measurements :=
  let vmax := listMax v
  let vmin := listMin v
  let vpp := vmax - vmin
  let cr := meanCrossings v
  let periods := diffs (select t (stride2 cr))
  let period := if 1 < cr.length then
      (if 0 < periods.length then listMean periods else 0) else 0
  let freq := if 1 < cr.length then
      (if 0 < period then 1 / period else 0) else 0
  let v10 := vmin + (1 / 10) * vpp
  let v90 := vmin + (9 / 10) * vpp
  let rising := risingEdges t v v10 v90
  let falling := fallingEdges t v v10 v90
  let rise_time := if rising = [] then 0 else listMean (rising.map Prod.snd)
  let fall_time := if falling = [] then 0 else listMean (falling.map Prod.snd)
  let ivs := diffs (select t cr)
  let high_time := (stride2 ivs).sum
  let total_time := ivs.sum
  let duty := if 1 < cr.length then
      (if 0 < total_time then high_time / total_time * 100 else 0) else 0
  { vpp := vpp, vmax := vmax, vmin := vmin, freq := freq, period := period,
    rise_time := rise_time, fall_time := fall_time, duty := duty }

/-- The `DataHandler`'s stored measurement state: `self.data` is `None`
or a frame mapping column names to sample columns; `self.metadata` maps
string keys to string values. -/
structure DataHandler where
  data : Option (List (String × List ℚ))
  metadata : List (String × String)

/-- Column lookup in a frame (`self.data[name]`). -/
def lookupCol (d : List (String × List ℚ)) (c : String) : Option (List ℚ) :=
  (d.find? (fun p => p.1 == c)).map Prod.snd

/-- Column names of a frame (`self.data.columns`). -/
def colNames (d : List (String × List ℚ)) : List String := d.map Prod.fst

/-- `DataHandler.get_measurements`: `None` when no data is loaded or the
channel is not a column, otherwise the computed record.  (The loader
guarantees a `TIME` column whenever `data` is set; the `getD []` default
is therefore never taken on states produced by a successful load.) -/
def DataHandler.get_measurements (h : DataHandler) (channel : String) :
    Option Measurements :=
  match h.data with
  | none => none
  | some d =>
    match lookupCol d channel with
    | none => none
    | some v => some (getMeasurementsCore ((lookupCol d "TIME").getD []) v)

/-! ### Claim-side (spec-worded) definitions for the measurement engine -/

/-- The spec's threshold `v10 = vmin + 0.10*vpp`. -/
def specV10 (v : List ℚ) : ℚ := listMin v + (1 / 10) * (listMax v - listMin v)

/-- The spec's threshold `v90 = vmin + 0.90*vpp`. -/
def specV90 (v : List ℚ) : ℚ := listMin v + (9 / 10) * (listMax v - listMin v)

/-- The spec's period: the mean of the time deltas between consecutive
stride-2 crossings (mean of the empty list is `0`). -/
def specPeriod (t v : List ℚ) : ℚ :=
  listMean (diffs (select t (stride2 (meanCrossings v))))

/-- The spec's `high_time`: sum of the stride-2 inter-crossing time
intervals starting at offset 0. -/
def specHighTime (t v : List ℚ) : ℚ :=
  (stride2 (diffs (select t (meanCrossings v)))).sum

/-- The spec's `total_time`: sum of all inter-crossing time intervals. -/
def specTotalTime (t v : List ℚ) : ℚ :=
  (diffs (select t (meanCrossings v))).sum

/-- The falling-edge events exactly as claim C3 words them: every
adjacent pair with `voltage[i] >= v90 and voltage[i+1] <= v10`, with no
exclusion of pairs that also satisfy the rising condition. -/
def specFallingEdges (t v : List ℚ) (v10 v90 : ℚ) : List (ℕ × ℚ) :=
  (List.range (v.length - 1)).filterMap (fun i =>
    if v.getD i 0 ≥ v90 ∧ v.getD (i + 1) 0 ≤ v10 then
      some (i, t.getD (i + 1) 0 - t.getD i 0)
    else none)

/-! ### Cursor measurements (`CursorManager.get_cursor_measurements`) -/

/-- The frequency readout derived from the time cursors; `infinite`
models Python's `float('inf')` sentinel. -/
inductive FreqReadout where
  | q : ℚ → FreqReadout
  | infinite : FreqReadout
deriving DecidableEq

/-- The dictionary built by `CursorManager.get_cursor_measurements`,
as a record of optional entries (a key absent from the Python dict is
`none` here). -/
structure CursorMeasurements where
  time1 : Option ℚ
  time2 : Option ℚ
  volt1 : Option ℚ
  volt2 : Option ℚ
  delta_t : Option ℚ
  freq : Option FreqReadout
  delta_v : Option ℚ
deriving DecidableEq

/-- `CursorManager.get_cursor_measurements`
(src/ui/cursor_manager.py, lines 111-132), applied to the four stored
cursor values. -/
def get_cursor_measurements (t1 t2 v1 v2 : Option ℚ) : CursorMeasurements :=
  { time1 := t1, time2 := t2, volt1 := v1, volt2 := v2
    delta_t :=
      match t1, t2 with
      | some a, some b => some |b - a|
      | _, _ => none
    freq :=
      match t1, t2 with
      | some a, some b =>
          some (if |b - a| ≠ 0 then FreqReadout.q (1 / |b - a|)
                else FreqReadout.infinite)
      | _, _ => none
    delta_v :=
      match v1, v2 with
      | some a, some b => some |b - a|
      | _, _ => none }

/-! ### Cursor state machine (`PlotManager` + `CursorManager`)

`ViewState` gathers the fields of `PlotManager` and its `CursorManager`
that the cursor gestures touch.  A cursor's matplotlib line object and
its stored `value` are created and cleared together by `add_cursor`,
`remove_cursor` and `update_plot`, so one `Option ℚ` models both (the
`line is not None` tests of the source are `Option.isSome` here).  The
per-cursor `active` flag and the overlay label text are display-only and
not modelled. -/

inductive Axis where
  | time : Axis
  | volt : Axis
deriving DecidableEq

inductive CName where
  | time1 : CName
  | time2 : CName
  | volt1 : CName
  | volt2 : CName
deriving DecidableEq

structure ViewState where
  /-- live cursors (`cursor_manager.cursors[name]` line/value) -/
  time1 : Option ℚ
  time2 : Option ℚ
  volt1 : Option ℚ
  volt2 : Option ℚ
  /-- `cursor_manager.dragging` -/
  dragging : Bool
  /-- `cursor_manager.active_cursor` -/
  activeCursor : Option CName
  /-- `cursor_manager.cursor_placement_mode` (`None`/`'time'`/`'voltage'`) -/
  placementMode : Option Axis
  /-- `cursor_manager.last_cursor_click` -/
  lastClick : Option CName
  /-- `plot_manager.time_cursor_var` checkbox -/
  timeVar : Bool
  /-- `plot_manager.volt_cursor_var` checkbox -/
  voltVar : Bool
  /-- `plot_manager.cursor_positions` dict -/
  posTime1 : Option ℚ
  posTime2 : Option ℚ
  posVolt1 : Option ℚ
  posVolt2 : Option ℚ
  /-- whether `plot_manager.current_data` is set (a waveform is loaded) -/
  dataLoaded : Bool
  /-- visible axis limits `ax.get_xlim()` / `ax.get_ylim()` -/
  xlo : ℚ
  xhi : ℚ
  ylo : ℚ
  yhi : ℚ
deriving DecidableEq

/-- The state right after `PlotManager.__init__`: no cursors, no stored
positions, toggles off, no data; matplotlib's default axis limits are
`(0, 1)`. -/
def initState : ViewState :=
  { time1 := none, time2 := none, volt1 := none, volt2 := none,
    dragging := false, activeCursor := none, placementMode := none,
    lastClick := none, timeVar := false, voltVar := false,
    posTime1 := none, posTime2 := none, posVolt1 := none, posVolt2 := none,
    dataLoaded := false, xlo := 0, xhi := 1, ylo := 0, yhi := 1 }

/-- The 2%-of-visible-range drag tolerance for time cursors:
`0.02 * (xlim[1] - xlim[0])`. -/
def tolX (s : ViewState) : ℚ := (1 / 50) * (s.xhi - s.xlo)

/-- The 2%-of-visible-range drag tolerance for voltage cursors. -/
def tolY (s : ViewState) : ℚ := (1 / 50) * (s.yhi - s.ylo)

/-- Whether a pointer coordinate is within tolerance of a cursor's line;
a cursor whose line is absent is skipped (`continue`). -/
def near (pos : Option ℚ) (coord tol : ℚ) : Bool :=
  match pos with
  | none => false
  | some c => decide (|coord - c| < tol)

/-- Claiming a drag: `active_cursor = name; dragging = True`. -/
def beginDrag (s : ViewState) (c : CName) : ViewState :=
  { s with activeCursor := some c, dragging := true }

/-- `CursorManager.on_click` (src/ui/cursor_manager.py, lines 180-207):
scan the cursors in dictionary order and let the first one within
tolerance claim the drag; otherwise do nothing.  (The per-cursor
`active` flag it also sets is not modelled.) -/
def cm_on_click (s : ViewState) (x y : ℚ) : ViewState :=
  if near s.time1 x (tolX s) then beginDrag s CName.time1
  else if near s.time2 x (tolX s) then beginDrag s CName.time2
  else if near s.volt1 y (tolY s) then beginDrag s CName.volt1
  else if near s.volt2 y (tolY s) then beginDrag s CName.volt2
  else s

/-- `PlotManager._handle_time_cursor_placement`: place time cursor 1 or
2 at the pointer's x coordinate, updating the placement bookkeeping. -/
def handleTimePlacement (s0 : ViewState) (x : ℚ) : ViewState :=
  let s := if s0.placementMode ≠ some Axis.time then
      { s0 with placementMode := some Axis.time, lastClick := none }
    else s0
  match s.lastClick with
  | none =>
    { s with time1 := some x, posTime1 := some x,
             lastClick := some CName.time1 }
  | some _ =>
    { s with time2 := some x, posTime2 := some x,
             placementMode := none, lastClick := none }

/-- `PlotManager._handle_voltage_cursor_placement`. -/
def handleVoltPlacement (s0 : ViewState) (y : ℚ) : ViewState :=
  let s := if s0.placementMode ≠ some Axis.volt then
      { s0 with placementMode := some Axis.volt, lastClick := none }
    else s0
  match s.lastClick with
  | none =>
    { s with volt1 := some y, posVolt1 := some y,
             lastClick := some CName.volt1 }
  | some _ =>
    { s with volt2 := some y, posVolt2 := some y,
             placementMode := none, lastClick := none }

/-- `PlotManager.on_plot_click` (src/ui/plot_manager.py, lines 430-447)
for a left click inside the axes with the toolbar idle; `dbl` is
`event.dblclick`. -/
def on_plot_click (s : ViewState) (dbl : Bool) (x y : ℚ) : ViewState :=
  if dbl then
    if s.timeVar ∧ s.placementMode = some Axis.time then
      handleTimePlacement s x
    else if s.voltVar ∧ s.placementMode = some Axis.volt then
      handleVoltPlacement s y
    else if s.timeVar then
      handleTimePlacement { s with placementMode := some Axis.time } x
    else if s.voltVar then
      handleVoltPlacement { s with placementMode := some Axis.volt } y
    else s
  else cm_on_click s x y

/-- `PlotManager.toggle_time_cursors` (src/ui/plot_manager.py, lines
350-388).  The checkbox variable flips before the command body runs.  On
disable: placed cursor values are cached into `cursor_positions`, both
cursors are removed, and the placement mode is handed over or cleared.
On enable: cached positions are restored. -/
def toggle_time_cursors (s0 : ViewState) : ViewState :=
  let s := { s0 with timeVar := !s0.timeVar }
  if s.timeVar then
    match s.posTime1 with
    | some p1 =>
      match s.posTime2 with
      | some p2 =>
        { s with time1 := some p1, time2 := some p2, placementMode := none }
      | none =>
        { s with time1 := some p1, placementMode := some Axis.time,
                 lastClick := some CName.time1 }
    | none => { s with placementMode := some Axis.time, lastClick := none }
  else
    let s1 := { s with
      posTime1 := if s.time1.isSome then s.time1 else s.posTime1,
      posTime2 := if s.time2.isSome then s.time2 else s.posTime2,
      time1 := none, time2 := none }
    if s1.placementMode = some Axis.time then
      if s1.voltVar then { s1 with placementMode := some Axis.volt }
      else { s1 with placementMode := none, lastClick := none }
    else s1

/-- `PlotManager.toggle_voltage_cursors` (src/ui/plot_manager.py, lines
390-428). -/
def toggle_voltage_cursors (s0 : ViewState) : ViewState :=
  let s := { s0 with voltVar := !s0.voltVar }
  if s.voltVar then
    match s.posVolt1 with
    | some p1 =>
      match s.posVolt2 with
      | some p2 =>
        { s with volt1 := some p1, volt2 := some p2, placementMode := none }
      | none =>
        { s with volt1 := some p1, placementMode := some Axis.volt,
                 lastClick := some CName.volt1 }
    | none => { s with placementMode := some Axis.volt, lastClick := none }
  else
    let s1 := { s with
      posVolt1 := if s.volt1.isSome then s.volt1 else s.posVolt1,
      posVolt2 := if s.volt2.isSome then s.volt2 else s.posVolt2,
      volt1 := none, volt2 := none }
    if s1.placementMode = some Axis.volt then
      if s1.timeVar then { s1 with placementMode := some Axis.time }
      else { s1 with placementMode := none, lastClick := none }
    else s1

/-- A concrete reachable-shaped state with both cursor pairs placed,
used by closed instances of the cursor theorems. -/
def sampleViewState : ViewState :=
  { initState with
    timeVar := true, voltVar := true
    time1 := some 2, time2 := some 3
    volt1 := some (-1), volt2 := some 4 }

/-! ### File loading (`DataHandler.load_data`)

`DataHandler.load_data` reads the file, scans for the header line, and
parses the tabular part with `pandas.read_csv`.  The file is modelled as
its list of lines; `read_csv` is modelled per its documented behaviour
and the spec's §6 interface contract: the columns of the parsed frame
are the comma-separated tokens of the first non-skipped line. -/

/-- `'TIME' in line`: substring test. -/
def containsTIME (s : String) : Bool := (s.splitOn "TIME").length > 1

/-- One metadata line: `if ',' in line: key, value = line.strip().split(',', 1)`. -/
def parseMetaLine (line : String) : Option (String × String) :=
  match line.trim.splitOn "," with
  | [] => none
  | [_] => none
  | k :: rest => some (k, String.intercalate "," rest)

/-- The metadata pairs collected from the first 13 lines. -/
def metadataOf (lines : List String) : List (String × String) :=
  (lines.take 13).filterMap parseMetaLine

/-- `data_start`: the first line index `>= 13` whose text contains
`TIME`; `0` if none is found (the scan never marks a line below 13). -/
def dataStart (lines : List String) : ℕ :=
  match (lines.drop 13).findIdx? containsTIME with
  | some j => 13 + j
  | none => 0

/-- The parse result of `pandas.read_csv(filepath, skiprows=...)`,
reduced to what the loader inspects: column names and raw rows. -/
structure ParsedCSV where
  cols : List String
  rows : List (List String)
deriving DecidableEq

/-- Modelled `pandas.read_csv`: the header is the first non-skipped
line, split on commas; every later line is a data row. -/
def readCSV (lines : List String) (skiprows : ℕ) : ParsedCSV :=
  { cols := ((lines.drop skiprows).headD "").trim.splitOn ","
    rows := (lines.drop (skiprows + 1)).map (fun l => l.trim.splitOn ",") }

/-- `required_columns = ['TIME', 'CH1', 'CH2']`. -/
def requiredColumns : List String := ["TIME", "CH1", "CH2"]

/-- `DataHandler.load_data` (src/core/data_handler.py, lines 9-36) on a
file given as its lines: locate the data header, parse, and raise
(`Except.error`) when a required column is missing from the parse. -/
def load_data (lines : List String) :
    Except String (ParsedCSV × List (String × String)) :=
  let ds := dataStart lines
  let data := readCSV lines ds
  let missing := requiredColumns.filter (fun c => !data.cols.contains c)
  if missing.isEmpty then Except.ok (data, metadataOf lines)
  else Except.error ("Missing required columns: " ++
    String.intercalate ", " missing)

/-- The loader-level handler state: `self.data` / `self.metadata`. -/
structure LoaderState where
  data : Option ParsedCSV
  metadata : List (String × String)
deriving DecidableEq

/-- The state transition of `DataHandler.load_data`: `self.data` and
`self.metadata` are assigned only after the required-column check
passes, so a failing load leaves the state untouched and surfaces the
error message (which `OscilloscopeViewer.load_data` catches and shows). -/
def LoaderState.load (s : LoaderState) (lines : List String) :
    LoaderState × Option String :=
  match load_data lines with
  | Except.error e => (s, some e)
  | Except.ok (d, m) => ({ data := some d, metadata := m }, none)

/-! ## Theorems

First, unfolding equations for the fields of `getMeasurementsCore`, then
general list lemmas, then one theorem per claim of the specification. -/

theorem getM_vmax (t v : List ℚ) : (getMeasurementsCore t v).vmax = listMax v := rfl

theorem getM_vmin (t v : List ℚ) : (getMeasurementsCore t v).vmin = listMin v := rfl

theorem getM_vpp (t v : List ℚ) :
    (getMeasurementsCore t v).vpp = listMax v - listMin v := rfl

theorem getM_period (t v : List ℚ) :
    (getMeasurementsCore t v).period =
      (if 1 < (meanCrossings v).length then
        (if 0 < (diffs (select t (stride2 (meanCrossings v)))).length then
          listMean (diffs (select t (stride2 (meanCrossings v)))) else 0)
      else 0) := rfl

theorem getM_freq (t v : List ℚ) :
    (getMeasurementsCore t v).freq =
      (if 1 < (meanCrossings v).length then
        (if 0 < (getMeasurementsCore t v).period then
          1 / (getMeasurementsCore t v).period else 0)
      else 0) := rfl

theorem getM_rise_time (t v : List ℚ) :
    (getMeasurementsCore t v).rise_time =
      (if risingEdges t v (specV10 v) (specV90 v) = [] then 0
       else listMean ((risingEdges t v (specV10 v) (specV90 v)).map Prod.snd)) := rfl

theorem getM_fall_time (t v : List ℚ) :
    (getMeasurementsCore t v).fall_time =
      (if fallingEdges t v (specV10 v) (specV90 v) = [] then 0
       else listMean ((fallingEdges t v (specV10 v) (specV90 v)).map Prod.snd)) := rfl

theorem getM_duty (t v : List ℚ) :
    (getMeasurementsCore t v).duty =
      (if 1 < (meanCrossings v).length then
        (if 0 < specTotalTime t v then
          specHighTime t v / specTotalTime t v * 100 else 0)
      else 0) := rfl

theorem listMean_nil : listMean [] = 0 := by
  simp [listMean]

theorem le_listMax {l : List ℚ} {x : ℚ} (hx : x ∈ l) : x ≤ listMax l := by
  induction l with
  | nil => cases hx
  | cons a r ih =>
    cases r with
    | nil =>
      rw [List.mem_singleton] at hx
      simp [listMax, hx]
    | cons b s =>
      rcases List.mem_cons.mp hx with h | h
      · rw [h]; exact le_max_left _ _
      · exact le_trans (ih h) (le_max_right _ _)

theorem listMax_mem {l : List ℚ} (h : l ≠ []) : listMax l ∈ l := by
  induction l with
  | nil => exact absurd rfl h
  | cons a r ih =>
    cases r with
    | nil => simp [listMax]
    | cons b s =>
      rcases max_choice a (listMax (b :: s)) with hm | hm
      · simp [listMax, hm]
      · have := ih (by simp)
        simp only [listMax, hm]
        exact List.mem_cons_of_mem a this

theorem listMin_le {l : List ℚ} {x : ℚ} (hx : x ∈ l) : listMin l ≤ x := by
  induction l with
  | nil => cases hx
  | cons a r ih =>
    cases r with
    | nil =>
      rw [List.mem_singleton] at hx
      simp [listMin, hx]
    | cons b s =>
      rcases List.mem_cons.mp hx with h | h
      · rw [h]; exact min_le_left _ _
      · exact le_trans (min_le_right _ _) (ih h)

theorem listMin_mem {l : List ℚ} (h : l ≠ []) : listMin l ∈ l := by
  induction l with
  | nil => exact absurd rfl h
  | cons a r ih =>
    cases r with
    | nil => simp [listMin]
    | cons b s =>
      rcases min_choice a (listMin (b :: s)) with hm | hm
      · simp [listMin, hm]
      · have := ih (by simp)
        simp only [listMin, hm]
        exact List.mem_cons_of_mem a this

/-- Claim C5: for every channel with `n >= 2` samples, `vmax` is the
maximum voltage sample, `vmin` the minimum, `vpp = vmax - vmin`, and
`vmax >= vmin`, always. -/
theorem claim_c5_voltage_extrema (t v : List ℚ) (h : 2 ≤ v.length) :
    (getMeasurementsCore t v).vmax ∈ v
    ∧ (∀ x ∈ v, x ≤ (getMeasurementsCore t v).vmax)
    ∧ (getMeasurementsCore t v).vmin ∈ v
    ∧ (∀ x ∈ v, (getMeasurementsCore t v).vmin ≤ x)
    ∧ (getMeasurementsCore t v).vpp =
        (getMeasurementsCore t v).vmax - (getMeasurementsCore t v).vmin
    ∧ (getMeasurementsCore t v).vmin ≤ (getMeasurementsCore t v).vmax := by
  have hne : v ≠ [] := by
    intro hv; rw [hv] at h; simp at h
  rw [getM_vmax, getM_vmin, getM_vpp]
  refine ⟨listMax_mem hne, fun x hx => le_listMax hx, listMin_mem hne,
    fun x hx => listMin_le hx, rfl, ?_⟩
  exact le_trans (listMin_le (listMax_mem hne)) le_rfl

theorem claim_c5_witness :
    2 ≤ ([1, 5, -2] : List ℚ).length
    ∧ (getMeasurementsCore [0, 1, 2] [1, 5, -2]).vmax ∈ ([1, 5, -2] : List ℚ) := by
  exact ⟨by decide, (claim_c5_voltage_extrema [0, 1, 2] [1, 5, -2] (by decide)).1⟩

theorem lookupCol_eq_none {d : List (String × List ℚ)} {c : String} :
    lookupCol d c = none ↔ c ∉ colNames d := by
  simp only [lookupCol, colNames, Option.map_eq_none', List.find?_eq_none,
    List.mem_map, beq_iff_eq]
  constructor
  · intro h hc
    rcases hc with ⟨p, hp, hpc⟩
    exact h p hp hpc
  · intro h p hp hpc
    exact h ⟨p, hp, hpc⟩

/-- Claim C10: `get_measurements` returns `None` (and neither a record
nor an exception) when no data is loaded or the named channel is not a
column of the loaded data, and a record is returned only for channels
present in the current waveform. -/
theorem claim_c10_none_guard (h : DataHandler) (c : String) :
    (h.data = none → h.get_measurements c = none)
    ∧ (∀ d, h.data = some d → c ∉ colNames d → h.get_measurements c = none)
    ∧ (∀ m, h.get_measurements c = some m →
        ∃ d, h.data = some d ∧ c ∈ colNames d) := by
  refine ⟨fun hd => ?_, fun d hd hc => ?_, fun m hm => ?_⟩
  · simp [DataHandler.get_measurements, hd]
  · simp [DataHandler.get_measurements, hd, lookupCol_eq_none.mpr hc]
  · match hdata : h.data with
    | none => simp [DataHandler.get_measurements, hdata] at hm
    | some d =>
      refine ⟨d, rfl, ?_⟩
      by_contra hc
      simp [DataHandler.get_measurements, hdata, lookupCol_eq_none.mpr hc] at hm

theorem mem_meanCrossings (v : List ℚ) (i : ℕ) :
    i ∈ meanCrossings v ↔
      i + 1 < v.length
        ∧ signbit (v.getD i 0 - listMean v) ≠
            signbit (v.getD (i + 1) 0 - listMean v) := by
  simp only [meanCrossings, List.mem_filter, List.mem_range, bne_iff_ne,
    ne_eq]
  constructor
  · rintro ⟨h1, h2⟩
    exact ⟨by omega, h2⟩
  · rintro ⟨h1, h2⟩
    exact ⟨by omega, h2⟩

theorem meanCrossings_sorted (v : List ℚ) :
    (meanCrossings v).Sorted (· < ·) := by
  exact List.Pairwise.sublist (List.filter_sublist _) (List.pairwise_lt_range _)

/-- Claim C1: the crossing list is the ordered list of indices `i` where
the sign bit of `voltage[i] - mean` differs from that of
`voltage[i+1] - mean`; with at least 2 crossings, `period` is the mean
of the time deltas between consecutive stride-2 crossings (`0` when
there are no deltas, i.e. with exactly 2 crossings the code's
`len(periods) > 0` guard and the empty mean both give `0`) and
`freq = 1/period` if `period > 0` else `0`; with fewer than 2 crossings,
`period = 0` and `freq = 0` (total function, no exception). -/
theorem claim_c1_crossings_period_freq (t v : List ℚ) :
    (∀ i : ℕ, i ∈ meanCrossings v ↔
      i + 1 < v.length
        ∧ signbit (v.getD i 0 - listMean v) ≠
            signbit (v.getD (i + 1) 0 - listMean v))
    ∧ (meanCrossings v).Sorted (· < ·)
    ∧ (2 ≤ (meanCrossings v).length →
        (getMeasurementsCore t v).period = specPeriod t v
        ∧ (getMeasurementsCore t v).freq =
            (if 0 < (getMeasurementsCore t v).period then
              1 / (getMeasurementsCore t v).period else 0))
    ∧ ((meanCrossings v).length < 2 →
        (getMeasurementsCore t v).period = 0
        ∧ (getMeasurementsCore t v).freq = 0) := by
  refine ⟨mem_meanCrossings v, meanCrossings_sorted v, fun h2 => ⟨?_, ?_⟩,
    fun h2 => ⟨?_, ?_⟩⟩
  · rw [getM_period, if_pos (by omega)]
    rcases Nat.eq_zero_or_pos
        (diffs (select t (stride2 (meanCrossings v)))).length with h0 | h0
    · rw [if_neg (by omega), specPeriod, List.length_eq_zero.mp h0,
        listMean_nil]
    · rw [if_pos h0, specPeriod]
  · rw [getM_freq, if_pos (by omega)]
  · rw [getM_period, if_neg (by omega)]
  · rw [getM_freq, if_neg (by omega)]

theorem claim_c1_witness :
    2 ≤ (meanCrossings [1, -1, 1, -1, 1]).length
    ∧ (getMeasurementsCore [0, 1, 2, 3, 4] [1, -1, 1, -1, 1]).period =
        specPeriod [0, 1, 2, 3, 4] [1, -1, 1, -1, 1] := by
  refine ⟨by with_unfolding_all decide, ?_⟩
  exact ((claim_c1_crossings_period_freq [0, 1, 2, 3, 4]
    [1, -1, 1, -1, 1]).2.2.1 (by with_unfolding_all decide)).1

theorem getD_eq_of_lt {l : List ℚ} {n : ℕ} (d : ℚ) (h : n < l.length) :
    l.getD n d = l[n] := by
  rw [List.getD_eq_getElem?_getD, List.getElem?_eq_getElem h]
  rfl

theorem getD_mono_of_sorted {t : List ℚ} (ht : t.Sorted (· ≤ ·)) {i j : ℕ}
    (hij : i ≤ j) (hj : j < t.length) : t.getD i 0 ≤ t.getD j 0 := by
  have hi : i < t.length := Nat.lt_of_le_of_lt hij hj
  rw [getD_eq_of_lt 0 hi, getD_eq_of_lt 0 hj]
  rcases Nat.eq_or_lt_of_le hij with h | h
  · subst h; exact le_refl _
  · have := List.pairwise_iff_get.mp ht ⟨i, hi⟩ ⟨j, hj⟩ h
    simpa using this

theorem diffs_nonneg {l : List ℚ} (h : l.Sorted (· ≤ ·)) :
    ∀ x ∈ diffs l, 0 ≤ x := by
  induction l with
  | nil => simp [diffs]
  | cons a r ih =>
    cases r with
    | nil => simp [diffs]
    | cons b s =>
      intro x hx
      rw [show diffs (a :: b :: s) = (b - a) :: diffs (b :: s) from rfl,
        List.mem_cons] at hx
      rcases hx with hx | hx
      · have hab : a ≤ b := (List.sorted_cons.mp h).1 b (by simp)
        rw [hx]; linarith
      · exact ih (List.sorted_cons.mp h).2 x hx

theorem select_sorted {t : List ℚ} {idxs : List ℕ} (ht : t.Sorted (· ≤ ·))
    (hidx : idxs.Sorted (· < ·)) (hb : ∀ i ∈ idxs, i < t.length) :
    (select t idxs).Sorted (· ≤ ·) := by
  rw [select, List.Sorted, List.pairwise_map]
  refine List.Pairwise.imp_of_mem ?_ hidx
  intro i j hi hj hij
  exact getD_mono_of_sorted ht (Nat.le_of_lt hij) (hb j hj)

theorem meanCrossings_lt_length {v : List ℚ} {i : ℕ}
    (h : i ∈ meanCrossings v) : i + 1 < v.length :=
  ((mem_meanCrossings v i).mp h).1

theorem specTotalTime_nonneg {t v : List ℚ} (hlen : t.length = v.length)
    (ht : t.Sorted (· ≤ ·)) : 0 ≤ specTotalTime t v := by
  refine List.sum_nonneg (diffs_nonneg (select_sorted ht (meanCrossings_sorted v) ?_))
  intro i hi
  have := meanCrossings_lt_length hi
  omega

/-- Claim C4: if the crossing list has fewer than 2 entries then
`duty = 0`; otherwise `duty = 100 * high_time / total_time` with
`high_time` the sum of the stride-2 inter-crossing intervals starting at
offset 0, `total_time` the sum of all inter-crossing intervals, and
`duty = 0` when `total_time == 0`.  The hypotheses are the data-model
invariants: the time base is nondecreasing and parallel to the channel
(`total_time < 0` is then impossible, making the code's `total > 0` test
agree with the claim's `total == 0` reading). -/
theorem claim_c4_duty (t v : List ℚ) (hlen : t.length = v.length)
    (ht : t.Sorted (· ≤ ·)) :
    ((meanCrossings v).length < 2 → (getMeasurementsCore t v).duty = 0)
    ∧ (2 ≤ (meanCrossings v).length →
        (getMeasurementsCore t v).duty =
          (if specTotalTime t v = 0 then 0
           else 100 * specHighTime t v / specTotalTime t v)) := by
  constructor
  · intro h2
    rw [getM_duty, if_neg (by omega)]
  · intro h2
    rw [getM_duty, if_pos (by omega)]
    rcases eq_or_lt_of_le (specTotalTime_nonneg hlen ht) with h0 | h0
    · rw [if_neg (by rw [← h0]; exact lt_irrefl 0), if_pos h0.symm]
    · rw [if_pos h0, if_neg (ne_of_gt h0)]
      ring

theorem claim_c4_witness :
    ([0, 1, 2, 3, 4] : List ℚ).length = ([1, -1, 1, -1, 1] : List ℚ).length
    ∧ (getMeasurementsCore [0, 1, 2, 3, 4] [1, -1, 1, -1, 1]).duty =
        (if specTotalTime [0, 1, 2, 3, 4] [1, -1, 1, -1, 1] = 0 then 0
         else 100 * specHighTime [0, 1, 2, 3, 4] [1, -1, 1, -1, 1] /
           specTotalTime [0, 1, 2, 3, 4] [1, -1, 1, -1, 1]) := by
  refine ⟨by decide, ?_⟩
  exact (claim_c4_duty [0, 1, 2, 3, 4] [1, -1, 1, -1, 1] (by decide)
    (by decide)).2 (by with_unfolding_all decide)

theorem mem_risingEdges (t v : List ℚ) (v10 v90 : ℚ) (i : ℕ) (d : ℚ) :
    (i, d) ∈ risingEdges t v v10 v90 ↔
      i + 1 < v.length ∧ v.getD i 0 ≤ v10 ∧ v.getD (i + 1) 0 ≥ v90
        ∧ d = t.getD (i + 1) 0 - t.getD i 0 := by
  simp only [risingEdges, List.mem_filterMap, List.mem_range]
  constructor
  · rintro ⟨j, hj, hf⟩
    split at hf
    · rename_i hc
      rw [Option.some_inj, Prod.mk.injEq] at hf
      obtain ⟨rfl, rfl⟩ := hf
      exact ⟨by omega, hc.1, hc.2, rfl⟩
    · cases hf
  · rintro ⟨h1, h2, h3, rfl⟩
    exact ⟨i, by omega, by rw [if_pos ⟨h2, h3⟩]⟩

theorem fallingEdges_eq_spec {t v : List ℚ} {v10 v90 : ℚ} (h : v10 < v90) :
    fallingEdges t v v10 v90 = specFallingEdges t v v10 v90 := by
  rw [fallingEdges, specFallingEdges]
  congr 1
  funext i
  refine if_congr ?_ rfl rfl
  constructor
  · rintro ⟨_, hf⟩
    exact hf
  · intro hf
    refine ⟨?_, hf⟩
    rintro ⟨hr1, _⟩
    exact absurd (le_trans hf.1 hr1) (not_le.mpr h)

/-- Claim C3, amended: rising-edge pairs are exactly the adjacent pairs
with `voltage[i] <= v10 and voltage[i+1] >= v90` and `rise_time` is
their mean duration (`0` if none); a falling-edge event additionally
requires that the pair is *not* a rising-edge pair (the code's `elif`),
which can only exclude a pair when `vpp = 0`: whenever `vpp > 0` the
recorded falling edges are exactly the pairs the claim describes. -/
theorem claim_c3_amended_edges (t v : List ℚ) :
    (∀ i d, (i, d) ∈ risingEdges t v (specV10 v) (specV90 v) ↔
      i + 1 < v.length ∧ v.getD i 0 ≤ specV10 v
        ∧ v.getD (i + 1) 0 ≥ specV90 v
        ∧ d = t.getD (i + 1) 0 - t.getD i 0)
    ∧ (getMeasurementsCore t v).rise_time =
        (if risingEdges t v (specV10 v) (specV90 v) = [] then 0
         else listMean ((risingEdges t v (specV10 v) (specV90 v)).map Prod.snd))
    ∧ (getMeasurementsCore t v).fall_time =
        (if fallingEdges t v (specV10 v) (specV90 v) = [] then 0
         else listMean ((fallingEdges t v (specV10 v) (specV90 v)).map Prod.snd))
    ∧ (0 < (getMeasurementsCore t v).vpp →
        fallingEdges t v (specV10 v) (specV90 v) =
          specFallingEdges t v (specV10 v) (specV90 v)) := by
  refine ⟨mem_risingEdges t v _ _, getM_rise_time t v, getM_fall_time t v,
    fun hpp => ?_⟩
  rw [getM_vpp] at hpp
  refine fallingEdges_eq_spec ?_
  rw [specV10, specV90]
  linarith

/-- Counterexample to claim C3 as stated: on the constant channel
`[5, 5]` (over time base `[0, 1]`) the pair `(0, 1)` satisfies the
claim's falling-edge condition (`v[0] >= v90` and `v[1] <= v10`), so the
claim's `fall_time` would be `1`, but the code records the pair only as
a rising edge (the `elif`) and returns `fall_time = 0`. -/
theorem claim_c3_counterexample :
    specFallingEdges [0, 1] [5, 5] (specV10 [5, 5]) (specV90 [5, 5]) = [(0, 1)]
    ∧ listMean ((specFallingEdges [0, 1] [5, 5]
        (specV10 [5, 5]) (specV90 [5, 5])).map Prod.snd) = 1
    ∧ (getMeasurementsCore [0, 1] [5, 5]).fall_time = 0 := by
  with_unfolding_all decide

theorem listMax_replicate (n : ℕ) (c : ℚ) (h : n ≠ 0) :
    listMax (List.replicate n c) = c := by
  induction n with
  | zero => exact absurd rfl h
  | succ m ih =>
    cases m with
    | zero => rfl
    | succ k =>
      rw [show List.replicate (k + 2) c = c :: c :: List.replicate k c from rfl,
        show listMax (c :: c :: List.replicate k c) =
          max c (listMax (c :: List.replicate k c)) from rfl,
        show (c :: List.replicate k c) = List.replicate (k + 1) c from rfl,
        ih (by omega)]
      exact max_self c

theorem listMin_replicate (n : ℕ) (c : ℚ) (h : n ≠ 0) :
    listMin (List.replicate n c) = c := by
  induction n with
  | zero => exact absurd rfl h
  | succ m ih =>
    cases m with
    | zero => rfl
    | succ k =>
      rw [show List.replicate (k + 2) c = c :: c :: List.replicate k c from rfl,
        show listMin (c :: c :: List.replicate k c) =
          min c (listMin (c :: List.replicate k c)) from rfl,
        show (c :: List.replicate k c) = List.replicate (k + 1) c from rfl,
        ih (by omega)]
      exact min_self c

theorem listMean_replicate (n : ℕ) (c : ℚ) (h : n ≠ 0) :
    listMean (List.replicate n c) = c := by
  rw [listMean, List.sum_replicate, List.length_replicate, nsmul_eq_mul]
  exact mul_div_cancel_left₀ c (Nat.cast_ne_zero.mpr h)

theorem getD_replicate {n i : ℕ} {c : ℚ} (h : i < n) :
    (List.replicate n c).getD i 0 = c := by
  rw [getD_eq_of_lt 0 (by simpa using h)]
  simp

theorem meanCrossings_replicate (n : ℕ) (c : ℚ) (h : n ≠ 0) :
    meanCrossings (List.replicate n c) = [] := by
  simp only [meanCrossings, listMean_replicate n c h, List.length_replicate]
  rw [List.filter_eq_nil_iff]
  intro i hi
  rw [List.mem_range] at hi
  rw [getD_replicate (by omega), getD_replicate (by omega), sub_self]
  simp

theorem filterMap_if_of_true {α β : Type} (l : List α) (p : α → Prop)
    [DecidablePred p] (g : α → β) (h : ∀ a ∈ l, p a) :
    (l.filterMap (fun a => if p a then some (g a) else none)) = l.map g := by
  induction l with
  | nil => rfl
  | cons a r ih =>
    have hpa := h a (List.mem_cons_self a r)
    simp only [List.filterMap_cons, if_pos hpa, List.map_cons]
    rw [ih (fun x hx => h x (List.mem_cons_of_mem a hx))]

theorem filterMap_if_of_false {α β : Type} (l : List α) (p : α → Prop)
    [DecidablePred p] (g : α → β) (h : ∀ a ∈ l, ¬ p a) :
    (l.filterMap (fun a => if p a then some (g a) else none)) = [] := by
  induction l with
  | nil => rfl
  | cons a r ih =>
    have hpa := h a (List.mem_cons_self a r)
    simp only [List.filterMap_cons, if_neg hpa]
    exact ih (fun x hx => h x (List.mem_cons_of_mem a hx))

theorem risingEdges_replicate (t : List ℚ) (n : ℕ) (c : ℚ) :
    risingEdges t (List.replicate n c) c c =
      (List.range (n - 1)).map (fun i => (i, t.getD (i + 1) 0 - t.getD i 0)) := by
  rw [risingEdges, List.length_replicate]
  refine filterMap_if_of_true _ _ _ ?_
  intro i hi
  rw [List.mem_range] at hi
  rw [getD_replicate (by omega), getD_replicate (by omega)]
  exact ⟨le_refl c, le_refl c⟩

theorem fallingEdges_replicate (t : List ℚ) (n : ℕ) (c : ℚ) :
    fallingEdges t (List.replicate n c) c c = [] := by
  rw [fallingEdges, List.length_replicate]
  refine filterMap_if_of_false _ _ _ ?_
  intro i hi
  rw [List.mem_range] at hi
  rw [getD_replicate (by omega), getD_replicate (by omega)]
  rintro ⟨h1, _⟩
  exact h1 ⟨le_refl c, le_refl c⟩

theorem map_range_diffs (t : List ℚ) :
    (List.range (t.length - 1)).map (fun i => t.getD (i + 1) 0 - t.getD i 0) =
      diffs t := by
  induction t with
  | nil => rfl
  | cons a r ih =>
    cases r with
    | nil => rfl
    | cons b s =>
      rw [show (a :: b :: s : List ℚ).length - 1 =
        ((b :: s : List ℚ).length - 1) + 1 from by simp]
      rw [List.range_succ_eq_map, List.map_cons, List.map_map]
      rw [show diffs (a :: b :: s) = (b - a) :: diffs (b :: s) from rfl]
      refine congrArg₂ List.cons ?_ ?_
      · rfl
      · rw [← ih]
        exact List.map_congr_left (fun i _ => rfl)

/-- Claim C2, amended: for a constant channel of `n >= 2` samples,
`vpp = 0`, `freq = 0`, `period = 0`, `duty = 0`, `fall_time = 0` and no
exception is raised — but `rise_time` is *not* `0`: with `vpp = 0` both
thresholds collapse to `v10 = v90 = c`, every adjacent pair satisfies
the rising-edge test, and `rise_time` is the mean of all adjacent time
deltas. -/
theorem claim_c2_amended_constant (t : List ℚ) (n : ℕ) (c : ℚ) (hn : 2 ≤ n)
    (hlen : t.length = n) :
    (getMeasurementsCore t (List.replicate n c)).vpp = 0
    ∧ (getMeasurementsCore t (List.replicate n c)).freq = 0
    ∧ (getMeasurementsCore t (List.replicate n c)).period = 0
    ∧ (getMeasurementsCore t (List.replicate n c)).duty = 0
    ∧ (getMeasurementsCore t (List.replicate n c)).fall_time = 0
    ∧ (getMeasurementsCore t (List.replicate n c)).rise_time =
        listMean (diffs t) := by
  have hn0 : n ≠ 0 := by omega
  have hmax := listMax_replicate n c hn0
  have hmin := listMin_replicate n c hn0
  have hcr := meanCrossings_replicate n c hn0
  have hv10 : specV10 (List.replicate n c) = c := by
    rw [specV10, hmax, hmin]; ring
  have hv90 : specV90 (List.replicate n c) = c := by
    rw [specV90, hmax, hmin]; ring
  refine ⟨?_, ?_, ?_, ?_, ?_, ?_⟩
  · rw [getM_vpp, hmax, hmin, sub_self]
  · rw [getM_freq, hcr]; simp
  · rw [getM_period, hcr]; simp
  · rw [getM_duty, hcr]; simp
  · rw [getM_fall_time, hv10, hv90, fallingEdges_replicate]
    simp
  · rw [getM_rise_time, hv10, hv90, risingEdges_replicate]
    have hne : (List.range (n - 1)).map
        (fun i => (i, t.getD (i + 1) 0 - t.getD i 0)) ≠ [] := by
      simp only [ne_eq, List.map_eq_nil_iff, List.range_eq_nil]
      omega
    rw [if_neg hne, List.map_map]
    rw [show (Prod.snd ∘ fun i => (i, t.getD (i + 1) 0 - t.getD i 0)) =
      fun i => t.getD (i + 1) 0 - t.getD i 0 from rfl]
    rw [← hlen, map_range_diffs]

/-- Counterexample to claim C2 as stated: the constant channel `[5, 5]`
(`vpp = 0`, `n = 2`) over time base `[0, 1]` yields `rise_time = 1`,
not `0` as claimed. -/
theorem claim_c2_counterexample :
    ([5, 5] : List ℚ) = List.replicate 2 (5 : ℚ)
    ∧ (getMeasurementsCore [0, 1] [5, 5]).vpp = 0
    ∧ (getMeasurementsCore [0, 1] [5, 5]).rise_time = 1 := by
  with_unfolding_all decide

theorem claim_c10_witness :
    (DataHandler.get_measurements ⟨none, []⟩ "CH1" = none)
    ∧ (DataHandler.get_measurements
        ⟨some [("TIME", [0, 1]), ("CH1", [5, 5])], []⟩ "CH2" = none) := by
  refine ⟨(claim_c10_none_guard ⟨none, []⟩ "CH1").1 rfl, ?_⟩
  exact (claim_c10_none_guard _ "CH2").2.1 _ rfl (by decide)

theorem claim_c2_witness :
    2 ≤ 2 ∧ ([0, 1] : List ℚ).length = 2
    ∧ (getMeasurementsCore [0, 1] (List.replicate 2 (5 : ℚ))).rise_time =
        listMean (diffs [0, 1]) :=
  ⟨by decide, by decide,
    (claim_c2_amended_constant [0, 1] 2 5 (by decide) (by decide)).2.2.2.2.2⟩

theorem claim_c3_witness :
    0 < (getMeasurementsCore [0, 1, 2] [0, 5, 0]).vpp
    ∧ fallingEdges [0, 1, 2] [0, 5, 0] (specV10 [0, 5, 0]) (specV90 [0, 5, 0]) =
        specFallingEdges [0, 1, 2] [0, 5, 0]
          (specV10 [0, 5, 0]) (specV90 [0, 5, 0]) :=
  ⟨by with_unfolding_all decide,
    (claim_c3_amended_edges [0, 1, 2] [0, 5, 0]).2.2.2
      (by with_unfolding_all decide)⟩

/-- Claim C6: with both time cursors set, the measurements include
`delta_t = |time2 - time1|` and a frequency readout `1/delta_t` when
`delta_t` is nonzero and the infinite sentinel when it is zero; with
both voltage cursors set they include `delta_v = |volt2 - volt1|`; and
each set cursor's own position is exposed unchanged. -/
theorem claim_c6_cursor_measurements (t1 t2 v1 v2 : Option ℚ) :
    (get_cursor_measurements t1 t2 v1 v2).time1 = t1
    ∧ (get_cursor_measurements t1 t2 v1 v2).time2 = t2
    ∧ (get_cursor_measurements t1 t2 v1 v2).volt1 = v1
    ∧ (get_cursor_measurements t1 t2 v1 v2).volt2 = v2
    ∧ (∀ a b, t1 = some a → t2 = some b →
        (get_cursor_measurements t1 t2 v1 v2).delta_t = some |b - a|
        ∧ (get_cursor_measurements t1 t2 v1 v2).freq =
            some (if b - a = 0 then FreqReadout.infinite
                  else FreqReadout.q (1 / |b - a|)))
    ∧ (∀ a b, v1 = some a → v2 = some b →
        (get_cursor_measurements t1 t2 v1 v2).delta_v = some |b - a|) := by
  refine ⟨rfl, rfl, rfl, rfl, ?_, ?_⟩
  · rintro a b rfl rfl
    refine ⟨rfl, ?_⟩
    show some (if |b - a| ≠ 0 then FreqReadout.q (1 / |b - a|)
      else FreqReadout.infinite) = _
    by_cases h : b - a = 0
    · rw [if_neg (by rw [abs_eq_zero.mpr h]; exact fun hne => hne rfl),
        if_pos h]
    · rw [if_pos (fun habs => h (abs_eq_zero.mp habs)), if_neg h]
  · rintro a b rfl rfl
    rfl

theorem claim_c6_witness :
    (get_cursor_measurements (some 0) (some 1) (some 0) (some 1)).delta_t =
        some 1
    ∧ (get_cursor_measurements (some 0) (some 1) (some 0) (some 1)).delta_v =
        some 1 := by
  have h := claim_c6_cursor_measurements (some 0) (some 1) (some 0) (some 1)
  have h1 : |(1 : ℚ) - 0| = 1 := by simp
  refine ⟨?_, ?_⟩
  · rw [(h.2.2.2.2.1 0 1 rfl rfl).1, h1]
  · rw [h.2.2.2.2.2 0 1 rfl rfl, h1]

/-- Claim C7: `load_data` raises (returns an error) exactly when one of
the required columns `TIME`, `CH1`, `CH2` is missing from the parsed
file; the error message is descriptive (it begins with
`Missing required columns: `); and a failing load leaves the handler's
stored data state unchanged. -/
theorem claim_c7_load_errors (s : LoaderState) (lines : List String) :
    ((s.load lines).2.isSome ↔
      ¬ (readCSV lines (dataStart lines)).cols.contains "TIME"
      ∨ ¬ (readCSV lines (dataStart lines)).cols.contains "CH1"
      ∨ ¬ (readCSV lines (dataStart lines)).cols.contains "CH2")
    ∧ ((s.load lines).2.isSome → (s.load lines).1 = s)
    ∧ (∀ e, (s.load lines).2 = some e →
        ∃ rest, e = "Missing required columns: " ++ rest) := by
  cases hE : (requiredColumns.filter
      (fun c => !(readCSV lines (dataStart lines)).cols.contains c)).isEmpty with
  | true =>
    have hld : load_data lines =
        Except.ok (readCSV lines (dataStart lines), metadataOf lines) := by
      simp only [load_data, hE, if_true]
    have hl2 : (s.load lines).2 = none := by
      rw [LoaderState.load, hld]
    rw [List.isEmpty_eq_true, List.filter_eq_nil_iff] at hE
    have hT := hE "TIME" (by simp [requiredColumns])
    have h1 := hE "CH1" (by simp [requiredColumns])
    have h2 := hE "CH2" (by simp [requiredColumns])
    simp at hT h1 h2
    refine ⟨?_, ?_, ?_⟩
    · rw [hl2]
      simp [hT, h1, h2]
    · intro h
      rw [hl2] at h
      simp at h
    · intro e he
      rw [hl2] at he
      cases he
  | false =>
    have hld : load_data lines = Except.error ("Missing required columns: " ++
        String.intercalate ", " (requiredColumns.filter
          (fun c => !(readCSV lines (dataStart lines)).cols.contains c))) := by
      simp only [load_data, hE, Bool.false_eq_true, if_false]
    have hl2 : (s.load lines).2 = some ("Missing required columns: " ++
        String.intercalate ", " (requiredColumns.filter
          (fun c => !(readCSV lines (dataStart lines)).cols.contains c))) := by
      rw [LoaderState.load, hld]
    have hl1 : (s.load lines).1 = s := by
      rw [LoaderState.load, hld]
    have hone : ¬ ((readCSV lines (dataStart lines)).cols.contains "TIME" = true
        ∧ (readCSV lines (dataStart lines)).cols.contains "CH1" = true
        ∧ (readCSV lines (dataStart lines)).cols.contains "CH2" = true) := by
      intro hall
      have hnil : (requiredColumns.filter
          (fun c => !(readCSV lines (dataStart lines)).cols.contains c)) = [] := by
        rw [List.filter_eq_nil_iff]
        intro a ha
        simp only [requiredColumns, List.mem_cons, List.not_mem_nil,
          or_false] at ha
        rcases ha with rfl | rfl | rfl
        · simp only [Bool.not_eq_true]
          simpa using hall.1
        · simp only [Bool.not_eq_true]
          simpa using hall.2.1
        · simp only [Bool.not_eq_true]
          simpa using hall.2.2
      rw [hnil] at hE
      simp at hE
    refine ⟨?_, fun _ => hl1, ?_⟩
    · constructor
      · intro _
        by_contra hno
        push_neg at hno
        exact hone ⟨hno.1, hno.2.1, hno.2.2⟩
      · intro _
        rw [hl2]
        rfl
    · intro e he
      rw [hl2] at he
      exact ⟨String.intercalate ", " (requiredColumns.filter
        (fun c => !(readCSV lines (dataStart lines)).cols.contains c)),
        (Option.some_inj.mp he).symm⟩

set_option maxHeartbeats 2000000 in
theorem claim_c7_witness :
    ((LoaderState.load ⟨none, []⟩ ["TIME,CH1"]).2.isSome = true)
    ∧ (LoaderState.load ⟨none, []⟩ ["TIME,CH1"]).1 = ⟨none, []⟩ := by
  have h := claim_c7_load_errors ⟨none, []⟩ ["TIME,CH1"]
  have hsome : (LoaderState.load ⟨none, []⟩ ["TIME,CH1"]).2.isSome = true :=
    h.1.mpr (Or.inr (Or.inr (by with_unfolding_all decide)))
  exact ⟨hsome, h.2.1 hsome⟩

theorem near_nonpos {p : Option ℚ} {x tol : ℚ} (h : tol ≤ 0) :
    near p x tol = false := by
  cases p with
  | none => rfl
  | some c =>
    simp only [near, decide_eq_false_iff_not, not_lt]
    exact le_trans h (abs_nonneg _)

/-- Claim C8, amended: the gesture handlers are total (no raise), and:
a single-click drag gesture is a no-op whenever no marker line exists —
in particular in the freshly initialised no-waveform state; when the
visible axis ranges have zero width the 2% tolerance degrades to `0` and
no marker is ever close enough to begin a drag; and a double-click with
both cursor pairs disabled is a no-op.  A placement gesture, however, is
*not* guarded by "a waveform is loaded" (see the counterexample). -/
theorem claim_c8_amended_gestures (s : ViewState) (x y : ℚ) :
    (s.time1 = none → s.time2 = none → s.volt1 = none → s.volt2 = none →
      on_plot_click s false x y = s)
    ∧ (s.xhi = s.xlo → s.yhi = s.ylo → on_plot_click s false x y = s)
    ∧ (s.timeVar = false → s.voltVar = false → on_plot_click s true x y = s) := by
  refine ⟨fun h1 h2 h3 h4 => ?_, fun hx hy => ?_, fun ht hv => ?_⟩
  · show cm_on_click s x y = s
    rw [cm_on_click, h1, h2, h3, h4]
    rfl
  · have hxt : tolX s ≤ 0 := by
      rw [tolX, hx, sub_self, mul_zero]
    have hyt : tolY s ≤ 0 := by
      rw [tolY, hy, sub_self, mul_zero]
    show cm_on_click s x y = s
    rw [cm_on_click, near_nonpos hxt, near_nonpos hxt, near_nonpos hyt,
      near_nonpos hyt]
    rfl
  · rw [on_plot_click, if_pos rfl]
    simp [ht, hv]

theorem claim_c8_witness :
    on_plot_click initState false 1 0 = initState
    ∧ on_plot_click { initState with xhi := 0, yhi := 0 } false 1 0 =
        { initState with xhi := 0, yhi := 0 } :=
  ⟨(claim_c8_amended_gestures initState 1 0).1 rfl rfl rfl rfl,
    (claim_c8_amended_gestures { initState with xhi := 0, yhi := 0 } 1 0).2.1
      rfl rfl⟩

/-- Counterexample to claim C8 as stated: starting from the initial
state (no waveform loaded), enabling the time-cursor toggle and then
double-clicking on the plot is *not* a no-op — `on_plot_click` has no
"data loaded" guard, so time cursor 1 is placed at the click position. -/
theorem claim_c8_counterexample :
    (toggle_time_cursors initState).dataLoaded = false
    ∧ (toggle_time_cursors initState).time1 = none
    ∧ on_plot_click (toggle_time_cursors initState) true 1 0 ≠
        toggle_time_cursors initState
    ∧ (on_plot_click (toggle_time_cursors initState) true 1 0).time1 =
        some 1 := by
  with_unfolding_all decide

theorem toggle_time_disable (s : ViewState) (hv : s.timeVar = true) :
    ∃ pm lc, toggle_time_cursors s =
      { s with
        timeVar := false
        time1 := none
        time2 := none
        posTime1 := if s.time1.isSome then s.time1 else s.posTime1
        posTime2 := if s.time2.isSome then s.time2 else s.posTime2
        placementMode := pm
        lastClick := lc } := by
  simp only [toggle_time_cursors, hv, Bool.not_true, Bool.false_eq_true,
    if_false]
  split_ifs <;> exact ⟨_, _, rfl⟩

theorem toggle_time_enable_both (s : ViewState) (a b : ℚ)
    (hv : s.timeVar = false) (h1 : s.posTime1 = some a)
    (h2 : s.posTime2 = some b) :
    toggle_time_cursors s =
      { s with
        timeVar := true
        time1 := some a
        time2 := some b
        placementMode := none } := by
  simp only [toggle_time_cursors, hv, Bool.not_false, if_true, h1, h2]

theorem toggle_volt_disable (s : ViewState) (hv : s.voltVar = true) :
    ∃ pm lc, toggle_voltage_cursors s =
      { s with
        voltVar := false
        volt1 := none
        volt2 := none
        posVolt1 := if s.volt1.isSome then s.volt1 else s.posVolt1
        posVolt2 := if s.volt2.isSome then s.volt2 else s.posVolt2
        placementMode := pm
        lastClick := lc } := by
  simp only [toggle_voltage_cursors, hv, Bool.not_true, Bool.false_eq_true,
    if_false]
  split_ifs <;> exact ⟨_, _, rfl⟩

theorem toggle_volt_enable_both (s : ViewState) (a b : ℚ)
    (hv : s.voltVar = false) (h1 : s.posVolt1 = some a)
    (h2 : s.posVolt2 = some b) :
    toggle_voltage_cursors s =
      { s with
        voltVar := true
        volt1 := some a
        volt2 := some b
        placementMode := none } := by
  simp only [toggle_voltage_cursors, hv, Bool.not_false, if_true, h1, h2]

/-- Claim C9: for either cursor pair with both markers placed, disabling
the pair's toggle caches the two positions in `cursor_positions` and
clears the live markers, and re-enabling it (same file, no intervening
reload) restores exactly the previously placed positions: the
disable-then-enable round trip is the identity on marker positions. -/
theorem claim_c9_toggle_roundtrip (s : ViewState) (a b : ℚ) :
    (s.timeVar = true → s.time1 = some a → s.time2 = some b →
      (toggle_time_cursors s).time1 = none
      ∧ (toggle_time_cursors s).time2 = none
      ∧ (toggle_time_cursors s).posTime1 = some a
      ∧ (toggle_time_cursors s).posTime2 = some b
      ∧ (toggle_time_cursors (toggle_time_cursors s)).time1 = some a
      ∧ (toggle_time_cursors (toggle_time_cursors s)).time2 = some b)
    ∧ (s.voltVar = true → s.volt1 = some a → s.volt2 = some b →
      (toggle_voltage_cursors s).volt1 = none
      ∧ (toggle_voltage_cursors s).volt2 = none
      ∧ (toggle_voltage_cursors s).posVolt1 = some a
      ∧ (toggle_voltage_cursors s).posVolt2 = some b
      ∧ (toggle_voltage_cursors (toggle_voltage_cursors s)).volt1 = some a
      ∧ (toggle_voltage_cursors (toggle_voltage_cursors s)).volt2 = some b) := by
  constructor
  · intro hv h1 h2
    obtain ⟨pm, lc, hoff⟩ := toggle_time_disable s hv
    have hp1 : (toggle_time_cursors s).posTime1 = some a := by
      rw [hoff]; simp [h1]
    have hp2 : (toggle_time_cursors s).posTime2 = some b := by
      rw [hoff]; simp [h2]
    have hvv : (toggle_time_cursors s).timeVar = false := by rw [hoff]
    have hon := toggle_time_enable_both (toggle_time_cursors s) a b hvv hp1 hp2
    exact ⟨by rw [hoff], by rw [hoff], hp1, hp2, by rw [hon], by rw [hon]⟩
  · intro hv h1 h2
    obtain ⟨pm, lc, hoff⟩ := toggle_volt_disable s hv
    have hp1 : (toggle_voltage_cursors s).posVolt1 = some a := by
      rw [hoff]; simp [h1]
    have hp2 : (toggle_voltage_cursors s).posVolt2 = some b := by
      rw [hoff]; simp [h2]
    have hvv : (toggle_voltage_cursors s).voltVar = false := by rw [hoff]
    have hon := toggle_volt_enable_both (toggle_voltage_cursors s) a b hvv hp1 hp2
    exact ⟨by rw [hoff], by rw [hoff], hp1, hp2, by rw [hon], by rw [hon]⟩

theorem claim_c9_witness :
    (toggle_time_cursors (toggle_time_cursors sampleViewState)).time1 = some 2
    ∧ (toggle_time_cursors (toggle_time_cursors sampleViewState)).time2 = some 3
    ∧ (toggle_voltage_cursors (toggle_voltage_cursors sampleViewState)).volt1 =
        some (-1)
    ∧ (toggle_voltage_cursors (toggle_voltage_cursors sampleViewState)).volt2 =
        some 4 := by
  have ht := (claim_c9_toggle_roundtrip sampleViewState 2 3).1 rfl rfl rfl
  have hv := (claim_c9_toggle_roundtrip sampleViewState (-1) 4).2 rfl rfl rfl
  exact ⟨ht.2.2.2.2.1, ht.2.2.2.2.2, hv.2.2.2.2.1, hv.2.2.2.2.2⟩

end Oscilloscope
